import Mathlib

/-!
Shallow embedding of the Engram Cloud TypeScript SDK (`src/index.ts`) and
proofs about its specification.

The SDK is a thin client: each operation assembles a parameter mapping,
wraps it in a JSON-RPC envelope, POSTs it to `{baseUrl}/v1/mcp`, and
unwraps the response envelope.  We embed:

* JSON values (`Json`) with JavaScript truthiness and property access,
  since the source manipulates parsed JSON dynamically;
* the option records (`CreateOptions`, `ListOptions`, `SearchOptions`,
  `UpdateOptions`) with `Option` fields standing for possibly-`undefined`
  TypeScript fields;
* each method's parameter-assembly rule, mirroring the conditional
  key-insertion of the source (JS truthiness checks such as
  `if (options?.workspace)` become emptiness tests on strings, while
  `!== undefined` checks become `Option.isSome`);
* `mcpCall`: envelope construction, header set, status check, body
  unwrapping, and the `try`/`finally` timer discipline as an event trace.
-/

/-- A JSON value, as produced by `resp.json()` and consumed by the source's
dynamic property accesses.  Objects are association lists in insertion
order, matching JS object key order for the literals the source builds. -/
inductive Json where
  | null
  | bool (b : Bool)
  | num (n : Int)
  | str (s : String)
  | arr (elems : List Json)
  | obj (fields : List (String × Json))
deriving Repr

mutual

/-- Decidable equality on JSON values (spelled out because automatic
deriving does not handle the nested lists). -/
def Json.decEq : (a b : Json) → Decidable (a = b)
  | .null, .null => .isTrue rfl
  | .bool x, .bool y =>
      if h : x = y then .isTrue (h ▸ rfl)
      else .isFalse (fun hh => h (Json.bool.inj hh))
  | .num x, .num y =>
      if h : x = y then .isTrue (h ▸ rfl)
      else .isFalse (fun hh => h (Json.num.inj hh))
  | .str x, .str y =>
      if h : x = y then .isTrue (h ▸ rfl)
      else .isFalse (fun hh => h (Json.str.inj hh))
  | .arr xs, .arr ys =>
      match Json.decEqList xs ys with
      | .isTrue h => .isTrue (h ▸ rfl)
      | .isFalse h => .isFalse (fun hh => h (Json.arr.inj hh))
  | .obj xs, .obj ys =>
      match Json.decEqFields xs ys with
      | .isTrue h => .isTrue (h ▸ rfl)
      | .isFalse h => .isFalse (fun hh => h (Json.obj.inj hh))
  | .null, .bool _ | .null, .num _ | .null, .str _ | .null, .arr _
  | .null, .obj _ | .bool _, .null | .bool _, .num _ | .bool _, .str _
  | .bool _, .arr _ | .bool _, .obj _ | .num _, .null | .num _, .bool _
  | .num _, .str _ | .num _, .arr _ | .num _, .obj _ | .str _, .null
  | .str _, .bool _ | .str _, .num _ | .str _, .arr _ | .str _, .obj _
  | .arr _, .null | .arr _, .bool _ | .arr _, .num _ | .arr _, .str _
  | .arr _, .obj _ | .obj _, .null | .obj _, .bool _ | .obj _, .num _
  | .obj _, .str _ | .obj _, .arr _ => .isFalse (fun h => Json.noConfusion h)

/-- Decidable equality on lists of JSON values. -/
def Json.decEqList : (a b : List Json) → Decidable (a = b)
  | [], [] => .isTrue rfl
  | [], _ :: _ => .isFalse (fun h => List.noConfusion h)
  | _ :: _, [] => .isFalse (fun h => List.noConfusion h)
  | x :: xs, y :: ys =>
      match Json.decEq x y with
      | .isFalse h1 => .isFalse (fun hh => h1 (List.cons.inj hh).1)
      | .isTrue h1 =>
        match Json.decEqList xs ys with
        | .isTrue h2 => .isTrue (by rw [h1, h2])
        | .isFalse h2 => .isFalse (fun hh => h2 (List.cons.inj hh).2)

/-- Decidable equality on JSON object field lists. -/
def Json.decEqFields : (a b : List (String × Json)) → Decidable (a = b)
  | [], [] => .isTrue rfl
  | [], _ :: _ => .isFalse (fun h => List.noConfusion h)
  | _ :: _, [] => .isFalse (fun h => List.noConfusion h)
  | (k1, v1) :: xs, (k2, v2) :: ys =>
      if hk : k1 = k2 then
        match Json.decEq v1 v2 with
        | .isFalse hv =>
            .isFalse (fun hh => hv (congrArg Prod.snd (List.cons.inj hh).1))
        | .isTrue hv =>
          match Json.decEqFields xs ys with
          | .isTrue ht => .isTrue (by rw [hk, hv, ht])
          | .isFalse ht => .isFalse (fun hh => ht (List.cons.inj hh).2)
      else
        .isFalse (fun hh => hk (congrArg Prod.fst (List.cons.inj hh).1))

end

instance : DecidableEq Json := Json.decEq

/-- A thrown TypeError, as JS raises for property access on `null`. -/
structure JsTypeError where
  message : String
deriving Repr, DecidableEq

/-- JS property access `v.key` on a parsed JSON value: on `null` the access
throws a TypeError (`Except.error`); on an object it is a lookup (keys of
a parsed object are unique, so the first match is the binding); on any
other value (numbers, strings, booleans, arrays) the named property is
`undefined` (`Except.ok none`). -/
def jsGet (v : Json) (key : String) : Except JsTypeError (Option Json) :=
  match v with
  | .null =>
      Except.error
        ⟨"Cannot read properties of null (reading '" ++ key ++ "')"⟩
  | .obj fields => Except.ok ((fields.find? (fun p => p.1 == key)).map (·.2))
  | _ => Except.ok none

/-- JS truthiness of a JSON value: `null`, `false`, `0` and `""` are falsy;
every array and object is truthy. -/
def jsTruthy : Json → Bool
  | .null => false
  | .bool b => b
  | .num n => n != 0
  | .str s => s != ""
  | .arr _ => true
  | .obj _ => true

mutual

/-- JS string coercion `String(v)` as applied by the `Error` constructor:
strings pass through, numbers and booleans print, `null` prints as
"null", arrays join their elements with commas (with `null` elements
becoming empty, per `Array.prototype.join`), objects print as
"[object Object]". -/
def jsToString : Json → String
  | .null => "null"
  | .bool b => if b then "true" else "false"
  | .num n => toString n
  | .str s => s
  | .arr elems => String.intercalate "," (jsToStringElems elems)
  | .obj _ => "[object Object]"

/-- Elements of an array under `Array.prototype.join`: a `null` element
becomes the empty string rather than "null". -/
def jsToStringElems : List Json → List String
  | [] => []
  | .null :: rest => "" :: jsToStringElems rest
  | v :: rest => jsToString v :: jsToStringElems rest

end

/-- Configuration record `EngramConfig`; `timeout` is optional with
default 30000 applied in the constructor. -/
structure EngramConfig where
  baseUrl : String
  apiKey : String
  tenant : String
  timeout : Option Nat := none
deriving Repr, DecidableEq

/-- Options for `create` (`CreateOptions`); every field is optional. -/
structure CreateOptions where
  memoryType : Option String := none
  tags : Option (List String) := none
  workspace : Option String := none
  metadata : Option (List (String × Json)) := none
  importance : Option Int := none
deriving Repr, DecidableEq

/-- Options for `list` (`ListOptions`); every field is optional. -/
structure ListOptions where
  limit : Option Int := none
  offset : Option Int := none
  workspace : Option String := none
  memoryType : Option String := none
  tags : Option (List String) := none
deriving Repr, DecidableEq

/-- Options for `search` (`SearchOptions`); every field is optional. -/
structure SearchOptions where
  limit : Option Int := none
  workspace : Option String := none
deriving Repr, DecidableEq

/-- Options for `update` (`UpdateOptions`); every field is optional, but the
record itself is a required argument of `update`. -/
structure UpdateOptions where
  content : Option String := none
  tags : Option (List String) := none
  metadata : Option (List (String × Json)) := none
  importance : Option Int := none
deriving Repr, DecidableEq

/-- Endpoint normalization `config.baseUrl.replace(/\/$/, "")`: the regex
matches a single slash at the end of the string, so the replacement drops
the final character exactly when it is a slash. -/
def normalizeBaseUrl (s : String) : String :=
  match s.data.getLast? with
  | some '/' => ⟨s.data.dropLast⟩
  | _ => s

/-- The client state set up by the `EngramClient` constructor: normalized
base URL, precomputed header list (in insertion order), and resolved
timeout. -/
structure EngramClient where
  baseUrl : String
  headers : List (String × String)
  timeout : Nat
deriving Repr, DecidableEq

/-- The `EngramClient` constructor body. -/
def EngramClient.ofConfig (config : EngramConfig) : EngramClient :=
  { baseUrl := normalizeBaseUrl config.baseUrl
    timeout := config.timeout.getD 30000
    headers :=
      [("Authorization", "Bearer " ++ config.apiKey),
       ("X-Tenant-Slug", config.tenant),
       ("Content-Type", "application/json")] }

/-- Parameter assembly of `create`: `content` and `memory_type` always
present (`options?.memoryType ?? "note"`), then `tags` when the array is
present (arrays are always truthy), `workspace` when present and truthy
(a non-empty string), `metadata` when present (objects are always
truthy), `importance` when `!== undefined`. -/
def createParams (content : String) (options : Option CreateOptions) :
    List (String × Json) :=
  [("content", Json.str content),
   ("memory_type", Json.str ((options.bind (·.memoryType)).getD "note"))]
  ++ (match options.bind (·.tags) with
      | some tags => [("tags", Json.arr (tags.map Json.str))]
      | none => [])
  ++ (match options.bind (·.workspace) with
      | some w => if w != "" then [("workspace", Json.str w)] else []
      | none => [])
  ++ (match options.bind (·.metadata) with
      | some m => [("metadata", Json.obj m)]
      | none => [])
  ++ (match options.bind (·.importance) with
      | some i => [("importance", Json.num i)]
      | none => [])

/-- Parameter assembly of `update`: `id` always present, all four options
guarded by `!== undefined`. -/
def updateParams (memoryId : Int) (options : UpdateOptions) :
    List (String × Json) :=
  [("id", Json.num memoryId)]
  ++ (match options.content with
      | some c => [("content", Json.str c)]
      | none => [])
  ++ (match options.tags with
      | some tags => [("tags", Json.arr (tags.map Json.str))]
      | none => [])
  ++ (match options.metadata with
      | some m => [("metadata", Json.obj m)]
      | none => [])
  ++ (match options.importance with
      | some i => [("importance", Json.num i)]
      | none => [])

/-- Parameter assembly of `list`: `limit` and `offset` always present with
defaults via `??`, then `workspace` and `memory_type` when truthy
(non-empty strings) and `tags` when present. -/
def listParams (options : Option ListOptions) : List (String × Json) :=
  [("limit", Json.num ((options.bind (·.limit)).getD 50)),
   ("offset", Json.num ((options.bind (·.offset)).getD 0))]
  ++ (match options.bind (·.workspace) with
      | some w => if w != "" then [("workspace", Json.str w)] else []
      | none => [])
  ++ (match options.bind (·.memoryType) with
      | some t => if t != "" then [("memory_type", Json.str t)] else []
      | none => [])
  ++ (match options.bind (·.tags) with
      | some tags => [("tags", Json.arr (tags.map Json.str))]
      | none => [])

/-- Parameter assembly of `search`: `query` and `limit` (default 10) always
present, `workspace` when truthy (a non-empty string). -/
def searchParams (query : String) (options : Option SearchOptions) :
    List (String × Json) :=
  [("query", Json.str query),
   ("limit", Json.num ((options.bind (·.limit)).getD 10))]
  ++ (match options.bind (·.workspace) with
      | some w => if w != "" then [("workspace", Json.str w)] else []
      | none => [])

/-- Parameter assembly of `link`; `edgeType = none` models calling without
the third argument, in which case the JS default parameter
`"related_to"` applies. -/
def linkParams (fromId toId : Int) (edgeType : Option String) :
    List (String × Json) :=
  [("from_id", Json.num fromId),
   ("to_id", Json.num toId),
   ("edge_type", Json.str (edgeType.getD "related_to"))]

/-- The JSON-RPC request envelope built by `mcpCall`: constant protocol
version "2.0", constant id 1, constant method "tools/call", and the tool
name and assembled parameters under `params`. -/
def rpcPayload (method : String) (params : List (String × Json)) : Json :=
  Json.obj
    [("jsonrpc", Json.str "2.0"),
     ("id", Json.num 1),
     ("method", Json.str "tools/call"),
     ("params", Json.obj
        [("name", Json.str method),
         ("arguments", Json.obj params)])]

/-- The single HTTP request `mcpCall` issues with `fetch`. -/
structure HttpRequest where
  url : String
  httpMethod : String
  headers : List (String × String)
  body : Json
deriving Repr, DecidableEq

/-- The request `fetch` receives inside `mcpCall`. -/
def mcpRequest (c : EngramClient) (method : String)
    (params : List (String × Json)) : HttpRequest :=
  { url := c.baseUrl ++ "/v1/mcp"
    httpMethod := "POST"
    headers := c.headers
    body := rpcPayload method params }

/-- What the environment lets `fetch` do on one call: either the request is
aborted (or otherwise rejected) before a response arrives, or a response
with a status, a status text and a body arrives; `body = none` stands
for a body on which `resp.json()` fails to parse. -/
inductive FetchOutcome where
  | aborted
  | response (status : Nat) (statusText : String) (body : Option Json)
deriving Repr, DecidableEq

/-- The ways a call can fail: an `EngramError` thrown by the source, the
abort rejection from `fetch`, the parse rejection from `resp.json()`,
or a TypeError thrown by a property access on a `null` body. -/
inductive CallError where
  | engram (message : String)
  | abortedCall
  | parseFailure
  | typeThrow (message : String)
deriving Repr, DecidableEq

/-- Events of one `mcpCall`, used to state the timer discipline of the
`try`/`finally` block. -/
inductive CallEvent where
  | timerSet
  | fetchStart
  | fetchRejected
  | statusNotOk
  | statusOk
  | bodyParseFailed
  | bodyParsed
  | timerCleared
deriving Repr, DecidableEq

/-- `resp.ok`: the status is in the 2xx success range. -/
def respOk (status : Nat) : Bool :=
  decide (200 ≤ status ∧ status < 300)

/-- The message of the application error: `result.error.message ?? "Unknown
error"`, where a missing or `null` message falls back and anything else
is coerced to a string by the `Error` constructor. -/
def errMessage (e : Json) : String :=
  match jsGet e "message" with
  | Except.ok (some Json.null) => "Unknown error"
  | Except.ok (some v) => jsToString v
  | Except.ok none => "Unknown error"
  | Except.error _ => "Unknown error"
  -- the last arm is unreachable from `processBody`: the source evaluates
  -- `result.error.message` only when `result.error` is truthy, and a
  -- truthy value is never `null`, so the access cannot throw there

/-- Unwrapping a parsed 2xx body: `if (result.error) throw new
EngramError(result.error.message ?? "Unknown error"); return
result.result;`.  The guard is JS truthiness of `result.error`; property
access on a missing key yields `undefined` (`none`); and when the parsed
body is JSON `null`, the very first access `result.error` throws a
TypeError, so the call rejects with it. -/
def processBody (body : Json) : Except CallError (Option Json) :=
  match jsGet body "error" with
  | Except.error t => Except.error (CallError.typeThrow t.message)
  | Except.ok (some e) =>
      if jsTruthy e then Except.error (CallError.engram (errMessage e))
      else
        match jsGet body "result" with
        | Except.error t => Except.error (CallError.typeThrow t.message)
        | Except.ok r => Except.ok r
  | Except.ok none =>
      match jsGet body "result" with
      | Except.error t => Except.error (CallError.typeThrow t.message)
      | Except.ok r => Except.ok r

/-- The result of the `try` block of `mcpCall` for a given fetch outcome:
an aborted fetch rejects; a non-2xx status throws the transport
`EngramError` without touching the body; otherwise the body is parsed
and unwrapped. -/
def tryBody (outcome : FetchOutcome) : Except CallError (Option Json) :=
  match outcome with
  | .aborted => Except.error CallError.abortedCall
  | .response status statusText body =>
      if respOk status then
        match body with
        | none => Except.error CallError.parseFailure
        | some b => processBody b
      else
        Except.error
          (CallError.engram ("HTTP " ++ toString status ++ ": " ++ statusText))

/-- The events of the `try` block, per fetch outcome. -/
def tryEvents (outcome : FetchOutcome) : List CallEvent :=
  match outcome with
  | .aborted => [CallEvent.fetchStart, CallEvent.fetchRejected]
  | .response status _ body =>
      if respOk status then
        match body with
        | none => [CallEvent.fetchStart, CallEvent.statusOk,
                   CallEvent.bodyParseFailed]
        | some _ => [CallEvent.fetchStart, CallEvent.statusOk,
                     CallEvent.bodyParsed]
      else [CallEvent.fetchStart, CallEvent.statusNotOk]

/-- One `mcpCall`: sets the timer, issues the request, and — by the
`try`/`finally` block — clears the timer after the `try` body on every
path before the call completes with the body's result.  Returns the
issued request, the event trace, and the call's outcome. -/
def mcpCall (c : EngramClient) (method : String)
    (params : List (String × Json)) (outcome : FetchOutcome) :
    HttpRequest × List CallEvent × Except CallError (Option Json) :=
  (mcpRequest c method params,
   CallEvent.timerSet :: (tryEvents outcome ++ [CallEvent.timerCleared]),
   tryBody outcome)

/-- One call of a public method of the client, with its arguments.
`link`'s `edgeType = none` models omitting the third argument so that
the JS default parameter applies. -/
inductive OpCall where
  | create (content : String) (options : Option CreateOptions)
  | get (memoryId : Int)
  | update (memoryId : Int) (options : UpdateOptions)
  | delete (memoryId : Int)
  | list (options : Option ListOptions)
  | search (query : String) (options : Option SearchOptions)
  | related (memoryId : Int)
  | link (fromId toId : Int) (edgeType : Option String)
  | stats
deriving Repr, DecidableEq

/-- The tool name each method passes to `mcpCall`. -/
def OpCall.toolName : OpCall → String
  | .create _ _ => "memory_create"
  | .get _ => "memory_get"
  | .update _ _ => "memory_update"
  | .delete _ => "memory_delete"
  | .list _ => "memory_list"
  | .search _ _ => "memory_search"
  | .related _ => "memory_related"
  | .link _ _ _ => "memory_link"
  | .stats => "memory_stats"

/-- The parameter mapping each method assembles before delegating to
`mcpCall`. -/
def OpCall.params : OpCall → List (String × Json)
  | .create content options => createParams content options
  | .get memoryId => [("id", Json.num memoryId)]
  | .update memoryId options => updateParams memoryId options
  | .delete memoryId => [("id", Json.num memoryId)]
  | .list options => listParams options
  | .search query options => searchParams query options
  | .related memoryId => [("id", Json.num memoryId)]
  | .link fromId toId edgeType => linkParams fromId toId edgeType
  | .stats => []

/-- Running one public method: the method body assembles parameters and
returns `this.mcpCall(name, params)`; no method assigns to any field of
`this`, so the client state after the call is the client state before
it.  Returns the (unchanged) client together with the issued request,
the event trace and the outcome. -/
def runOp (c : EngramClient) (op : OpCall) (outcome : FetchOutcome) :
    EngramClient × HttpRequest × List CallEvent × Except CallError (Option Json) :=
  (c, mcpCall c op.toolName op.params outcome)

/-- The key set of a parameter mapping. -/
def paramKeys (ps : List (String × Json)) : List String := ps.map Prod.fst

/-- The client-state transition of one public method call: the state
component of `runOp`. -/
def stepClient (c : EngramClient) (call : OpCall × FetchOutcome) : EngramClient :=
  (runOp c call.1 call.2).1

lemma mem_paramKeys {k : String} {ps : List (String × Json)} :
    k ∈ paramKeys ps ↔ ∃ v, (k, v) ∈ ps := by
  constructor
  · intro h
    rcases List.mem_map.1 h with ⟨⟨k', v⟩, hm, he⟩
    exact ⟨v, by simpa [← he] using hm⟩
  · rintro ⟨v, hv⟩
    exact List.mem_map.2 ⟨(k, v), hv, rfl⟩

lemma mem_createParams {content : String} {copts : Option CreateOptions}
    {p : String × Json} :
    p ∈ createParams content copts ↔
      p = ("content", Json.str content) ∨
      p = ("memory_type", Json.str ((copts.bind (·.memoryType)).getD "note")) ∨
      (∃ v, copts.bind (·.tags) = some v ∧ p = ("tags", Json.arr (v.map Json.str))) ∨
      (∃ w, copts.bind (·.workspace) = some w ∧ w ≠ "" ∧ p = ("workspace", Json.str w)) ∨
      (∃ m, copts.bind (·.metadata) = some m ∧ p = ("metadata", Json.obj m)) ∨
      (∃ i, copts.bind (·.importance) = some i ∧ p = ("importance", Json.num i)) := by
  unfold createParams
  cases htags : copts.bind (·.tags) <;>
    cases hws : copts.bind (·.workspace) <;>
      cases hmeta : copts.bind (·.metadata) <;>
        cases himp : copts.bind (·.importance) <;>
          simp [List.mem_append]

lemma mem_updateParams {memoryId : Int} {uopts : UpdateOptions}
    {p : String × Json} :
    p ∈ updateParams memoryId uopts ↔
      p = ("id", Json.num memoryId) ∨
      (∃ c, uopts.content = some c ∧ p = ("content", Json.str c)) ∨
      (∃ v, uopts.tags = some v ∧ p = ("tags", Json.arr (v.map Json.str))) ∨
      (∃ m, uopts.metadata = some m ∧ p = ("metadata", Json.obj m)) ∨
      (∃ i, uopts.importance = some i ∧ p = ("importance", Json.num i)) := by
  unfold updateParams
  cases hc : uopts.content <;>
    cases htags : uopts.tags <;>
      cases hmeta : uopts.metadata <;>
        cases himp : uopts.importance <;>
          simp [List.mem_append]

lemma mem_listParams {lopts : Option ListOptions} {p : String × Json} :
    p ∈ listParams lopts ↔
      p = ("limit", Json.num ((lopts.bind (·.limit)).getD 50)) ∨
      p = ("offset", Json.num ((lopts.bind (·.offset)).getD 0)) ∨
      (∃ w, lopts.bind (·.workspace) = some w ∧ w ≠ "" ∧ p = ("workspace", Json.str w)) ∨
      (∃ t, lopts.bind (·.memoryType) = some t ∧ t ≠ "" ∧ p = ("memory_type", Json.str t)) ∨
      (∃ v, lopts.bind (·.tags) = some v ∧ p = ("tags", Json.arr (v.map Json.str))) := by
  unfold listParams
  cases hws : lopts.bind (·.workspace) <;>
    cases hmt : lopts.bind (·.memoryType) <;>
      cases htags : lopts.bind (·.tags) <;>
        simp [List.mem_append]

lemma mem_searchParams {query : String} {sopts : Option SearchOptions}
    {p : String × Json} :
    p ∈ searchParams query sopts ↔
      p = ("query", Json.str query) ∨
      p = ("limit", Json.num ((sopts.bind (·.limit)).getD 10)) ∨
      (∃ w, sopts.bind (·.workspace) = some w ∧ w ≠ "" ∧ p = ("workspace", Json.str w)) := by
  unfold searchParams
  cases hws : sopts.bind (·.workspace) <;>
    simp [List.mem_append]

lemma foldl_stepClient_eq (calls : List (OpCall × FetchOutcome)) (c : EngramClient) :
    calls.foldl stepClient c = c := by
  induction calls generalizing c with
  | nil => rfl
  | cons hd tl ih => exact ih c

/-- C4: calling create("x") with no options produces a parameter mapping
that includes memory_type = "note", and calling list() with no options
produces exactly the mapping limit = 50, offset = 0. -/
theorem create_default_and_list_default :
    ("memory_type", Json.str "note") ∈ createParams "x" none ∧
    listParams none = [("limit", Json.num 50), ("offset", Json.num 0)] := by
  decide

/-- C5: link(1, 2) with no edgeType argument produces edge_type =
"related_to", link(1, 2, "caused_by") produces edge_type = "caused_by",
and in both cases from_id and to_id carry the given ids. -/
theorem link_edge_type_default_and_explicit :
    linkParams 1 2 none =
      [("from_id", Json.num 1), ("to_id", Json.num 2),
       ("edge_type", Json.str "related_to")] ∧
    linkParams 1 2 (some "caused_by") =
      [("from_id", Json.num 1), ("to_id", Json.num 2),
       ("edge_type", Json.str "caused_by")] := by
  decide

/-- C10: caller-supplied zeros are preserved: list with limit = 0 and
offset = 0 keeps both zeros (the defaults 50 and 0 only replace an
absent option), and create and update with importance = 0 include
importance = 0 in the parameter mapping. -/
theorem zero_values_preserved :
    listParams (some { limit := some 0, offset := some 0 }) =
      [("limit", Json.num 0), ("offset", Json.num 0)] ∧
    ("importance", Json.num 0) ∈ createParams "x" (some { importance := some 0 }) ∧
    ("importance", Json.num 0) ∈ updateParams 1 { importance := some 0 } := by
  decide

/-- C7: on every exit path of a call — success, transport-status failure,
application-error failure, parse failure, or abort — the per-call timer
is cleared, as the last event before the call completes, after the timer
was set at the start. -/
theorem timer_cleared_on_every_path (c : EngramClient) (op : OpCall)
    (outcome : FetchOutcome) :
    ((runOp c op outcome).2.2.1).head? = some CallEvent.timerSet ∧
    ((runOp c op outcome).2.2.1).getLast? = some CallEvent.timerCleared := by
  refine ⟨rfl, ?_⟩
  show (CallEvent.timerSet :: (tryEvents outcome ++ [CallEvent.timerCleared])).getLast?
      = some CallEvent.timerCleared
  rw [← List.cons_append, List.getLast?_append_cons]
  rfl

/-- C8: every operation sends the JSON-RPC body with protocol version
"2.0", constant id 1, method "tools/call", and the tool name and
assembled arguments under params, with the Authorization bearer header,
the X-Tenant-Slug tenant header and the application/json content type. -/
theorem request_shape_and_headers (config : EngramConfig) (op : OpCall)
    (outcome : FetchOutcome) :
    ((runOp (EngramClient.ofConfig config) op outcome).2.1).httpMethod = "POST" ∧
    ((runOp (EngramClient.ofConfig config) op outcome).2.1).headers =
      [("Authorization", "Bearer " ++ config.apiKey),
       ("X-Tenant-Slug", config.tenant),
       ("Content-Type", "application/json")] ∧
    ((runOp (EngramClient.ofConfig config) op outcome).2.1).body =
      Json.obj
        [("jsonrpc", Json.str "2.0"),
         ("id", Json.num 1),
         ("method", Json.str "tools/call"),
         ("params", Json.obj
            [("name", Json.str op.toolName),
             ("arguments", Json.obj op.params)])] :=
  ⟨rfl, rfl, rfl⟩

/-- C9: the client's configuration state (baseUrl, headers, timeout) is
fixed at construction: after any sequence of operation calls the client
state is unchanged and its three fields still equal the values computed
by the constructor. -/
theorem client_config_immutable (config : EngramConfig)
    (calls : List (OpCall × FetchOutcome)) :
    calls.foldl stepClient (EngramClient.ofConfig config)
      = EngramClient.ofConfig config ∧
    (calls.foldl stepClient (EngramClient.ofConfig config)).baseUrl
      = normalizeBaseUrl config.baseUrl ∧
    (calls.foldl stepClient (EngramClient.ofConfig config)).headers
      = [("Authorization", "Bearer " ++ config.apiKey),
         ("X-Tenant-Slug", config.tenant),
         ("Content-Type", "application/json")] ∧
    (calls.foldl stepClient (EngramClient.ofConfig config)).timeout
      = config.timeout.getD 30000 := by
  rw [foldl_stepClient_eq]
  exact ⟨rfl, rfl, rfl, rfl⟩

/-- C6: a client built on endpoint "https://x/" and one built on
"https://x" send every request to the identical URL "https://x/v1/mcp",
and construction removes at most a single trailing slash from any
endpoint. -/
theorem endpoint_trailing_slash_normalization :
    (∀ (apiKey tenant : String) (timeout : Option Nat) (op : OpCall)
        (outcome : FetchOutcome),
      ((runOp (EngramClient.ofConfig ⟨"https://x/", apiKey, tenant, timeout⟩)
          op outcome).2.1).url = "https://x/v1/mcp" ∧
      ((runOp (EngramClient.ofConfig ⟨"https://x", apiKey, tenant, timeout⟩)
          op outcome).2.1).url = "https://x/v1/mcp") ∧
    (∀ s : String, normalizeBaseUrl s = s ∨ normalizeBaseUrl s ++ "/" = s) := by
  constructor
  · intro apiKey tenant timeout op outcome
    exact ⟨rfl, rfl⟩
  · intro s
    unfold normalizeBaseUrl
    split
    · next heq =>
        right
        apply String.ext
        rw [String.data_append]
        exact List.dropLast_append_getLast? _ heq
    · left
      rfl

/-- C3: on an HTTP status outside the success range, every operation fails
with a single EngramError whose message contains the numeric status and
the status text, and the outcome does not depend on the response body
(the body is never parsed in that branch). -/
theorem http_error_status_and_body_ignored (c : EngramClient) (op : OpCall)
    (status : Nat) (statusText : String) (body body' : Option Json)
    (h : respOk status = false) :
    ∃ msg,
      (runOp c op (.response status statusText body)).2.2.2
        = Except.error (CallError.engram msg) ∧
      (∃ a b, msg = a ++ toString status ++ b) ∧
      (∃ a, msg = a ++ statusText) ∧
      (runOp c op (.response status statusText body)).2.2.2
        = (runOp c op (.response status statusText body')).2.2.2 := by
  refine ⟨"HTTP " ++ toString status ++ ": " ++ statusText, ?_, ?_, ?_, ?_⟩
  · show tryBody (.response status statusText body) = _
    simp [tryBody, h]
  · exact ⟨"HTTP ", ": " ++ statusText, by rw [String.append_assoc]⟩
  · exact ⟨"HTTP " ++ toString status ++ ": ", rfl⟩
  · show tryBody (.response status statusText body)
        = tryBody (.response status statusText body')
    simp [tryBody, h]

/-- Witness for C3 at status 404 with two different bodies. -/
theorem http_error_status_witness :
    ∃ msg,
      (runOp (EngramClient.ofConfig ⟨"https://x", "k", "t", none⟩) OpCall.stats
          (.response 404 "Not Found" none)).2.2.2
        = Except.error (CallError.engram msg) ∧
      (∃ a b, msg = a ++ toString 404 ++ b) ∧
      (∃ a, msg = a ++ "Not Found") ∧
      (runOp (EngramClient.ofConfig ⟨"https://x", "k", "t", none⟩) OpCall.stats
          (.response 404 "Not Found" none)).2.2.2
        = (runOp (EngramClient.ofConfig ⟨"https://x", "k", "t", none⟩) OpCall.stats
            (.response 404 "Not Found" (some (Json.str "ignored")))).2.2.2 :=
  http_error_status_and_body_ignored
    (EngramClient.ofConfig ⟨"https://x", "k", "t", none⟩) OpCall.stats
    404 "Not Found" none (some (Json.str "ignored")) (by decide)

/-- Counterexample to C2: the source guard is `if (result.error)`, JS
truthiness, not presence.  On the 2xx body `{"error": null, "result": 5}`
the `error` field is present, yet the call does not reject: it returns
the result value 5. -/
theorem error_field_present_but_falsy_succeeds :
    jsGet (Json.obj [("error", Json.null), ("result", Json.num 5)]) "error"
      = Except.ok (some Json.null) ∧
    tryBody (.response 200 "OK"
        (some (Json.obj [("error", Json.null), ("result", Json.num 5)])))
      = Except.ok (some (Json.num 5)) :=
  ⟨rfl, rfl⟩

/-- C2 amended: for every 2xx response whose parsed body has an `error`
field that is present and truthy (in particular, not null), every
operation rejects with an EngramError whose message is the error's
`message` string, or "Unknown error" when the message field is absent;
when the `error` access succeeds and the field is absent or falsy, the
call returns the body's `result` value, which may be undefined when
`result` is absent; and when the body itself is JSON `null`, the
`result.error` access throws a TypeError and the call rejects with it. -/
theorem envelope_error_unwrapping (c : EngramClient) (op : OpCall)
    (status : Nat) (statusText : String) (body : Json)
    (h : respOk status = true) :
    (∀ e, jsGet body "error" = Except.ok (some e) → jsTruthy e = true →
      (runOp c op (.response status statusText (some body))).2.2.2
        = Except.error (CallError.engram (errMessage e)) ∧
      (∀ s, jsGet e "message" = Except.ok (some (Json.str s)) →
        errMessage e = s) ∧
      (jsGet e "message" = Except.ok none → errMessage e = "Unknown error")) ∧
    (∀ ef r, jsGet body "error" = Except.ok ef →
      (∀ e, ef = some e → jsTruthy e = false) →
      jsGet body "result" = Except.ok r →
      (runOp c op (.response status statusText (some body))).2.2.2
        = Except.ok r) ∧
    (∀ t, jsGet body "error" = Except.error t →
      (runOp c op (.response status statusText (some body))).2.2.2
        = Except.error (CallError.typeThrow t.message)) := by
  refine ⟨?_, ?_, ?_⟩
  · intro e he htruthy
    refine ⟨?_, ?_, ?_⟩
    · show tryBody (.response status statusText (some body)) = _
      simp [tryBody, h, processBody, he, htruthy]
    · intro s hs
      simp [errMessage, hs, jsToString]
    · intro hs
      simp [errMessage, hs]
  · intro ef r he hfalsy hr
    show tryBody (.response status statusText (some body)) = _
    cases ef with
    | none => simp [tryBody, h, processBody, he, hr]
    | some e => simp [tryBody, h, processBody, he, hfalsy e rfl, hr]
  · intro t ht
    show tryBody (.response status statusText (some body)) = _
    simp [tryBody, h, processBody, ht]

/-- Witness for C2: a mocked 200 response with body
`{"error":{"message":"not found"}}` makes get(999) reject with exactly
"not found", one with body `{"error":{}}` rejects with the fallback
"Unknown error", and one whose body is JSON `null` rejects with the
TypeError thrown by the `result.error` access. -/
theorem envelope_error_unwrapping_witness :
    (runOp (EngramClient.ofConfig ⟨"https://x", "k", "t", none⟩) (OpCall.get 999)
        (.response 200 "OK"
          (some (Json.obj [("error", Json.obj [("message", Json.str "not found")])])))).2.2.2
      = Except.error (CallError.engram "not found") ∧
    (runOp (EngramClient.ofConfig ⟨"https://x", "k", "t", none⟩) (OpCall.get 999)
        (.response 200 "OK" (some (Json.obj [("error", Json.obj [])])))).2.2.2
      = Except.error (CallError.engram "Unknown error") ∧
    (runOp (EngramClient.ofConfig ⟨"https://x", "k", "t", none⟩) (OpCall.get 999)
        (.response 200 "OK" (some Json.null))).2.2.2
      = Except.error (CallError.typeThrow
          "Cannot read properties of null (reading 'error')") := by
  refine ⟨?_, ?_, ?_⟩
  · have h := (envelope_error_unwrapping
        (EngramClient.ofConfig ⟨"https://x", "k", "t", none⟩) (OpCall.get 999)
        200 "OK" (Json.obj [("error", Json.obj [("message", Json.str "not found")])])
        (by decide)).1
        (Json.obj [("message", Json.str "not found")]) rfl rfl
    exact h.1
  · have h := (envelope_error_unwrapping
        (EngramClient.ofConfig ⟨"https://x", "k", "t", none⟩) (OpCall.get 999)
        200 "OK" (Json.obj [("error", Json.obj [])])
        (by decide)).1 (Json.obj []) rfl rfl
    exact h.1
  · exact (envelope_error_unwrapping
        (EngramClient.ofConfig ⟨"https://x", "k", "t", none⟩) (OpCall.get 999)
        200 "OK" Json.null (by decide)).2.2
        ⟨"Cannot read properties of null (reading 'error')"⟩ rfl

/-- Counterexample to C1: the source guards workspace with a JS truthiness
check (`if (options?.workspace)`), so the caller-supplied empty string
is dropped: create("x", {workspace: ""}) supplies the workspace option,
yet "workspace" does not appear in the assembled parameter mapping. -/
theorem supplied_empty_workspace_dropped :
    (some "" : Option String) ≠ none ∧
    "workspace" ∉ paramKeys
      (createParams "x" (some { workspace := some "" })) := by
  decide

/-- C1 amended: for create, update, list and search, an option the caller
did not supply never appears as a key in the assembled parameter
mapping, and a supplied option appears under its wire name with its
exact value — except that the string options guarded by JS truthiness
(workspace in create/list/search, memoryType in list) are omitted when
the supplied string is empty. -/
theorem optional_params_exactness
    (content : String) (copts : Option CreateOptions)
    (memoryId : Int) (uopts : UpdateOptions)
    (lopts : Option ListOptions)
    (query : String) (sopts : Option SearchOptions) :
    (copts.bind (·.tags) = none →
      "tags" ∉ paramKeys (createParams content copts)) ∧
    (copts.bind (·.workspace) = none →
      "workspace" ∉ paramKeys (createParams content copts)) ∧
    (copts.bind (·.metadata) = none →
      "metadata" ∉ paramKeys (createParams content copts)) ∧
    (copts.bind (·.importance) = none →
      "importance" ∉ paramKeys (createParams content copts)) ∧
    (∀ v, copts.bind (·.tags) = some v →
      ("tags", Json.arr (v.map Json.str)) ∈ createParams content copts) ∧
    (∀ w, copts.bind (·.workspace) = some w → w ≠ "" →
      ("workspace", Json.str w) ∈ createParams content copts) ∧
    (copts.bind (·.workspace) = some "" →
      "workspace" ∉ paramKeys (createParams content copts)) ∧
    (∀ m, copts.bind (·.metadata) = some m →
      ("metadata", Json.obj m) ∈ createParams content copts) ∧
    (∀ i, copts.bind (·.importance) = some i →
      ("importance", Json.num i) ∈ createParams content copts) ∧
    (uopts.content = none →
      "content" ∉ paramKeys (updateParams memoryId uopts)) ∧
    (uopts.tags = none →
      "tags" ∉ paramKeys (updateParams memoryId uopts)) ∧
    (uopts.metadata = none →
      "metadata" ∉ paramKeys (updateParams memoryId uopts)) ∧
    (uopts.importance = none →
      "importance" ∉ paramKeys (updateParams memoryId uopts)) ∧
    (∀ s, uopts.content = some s →
      ("content", Json.str s) ∈ updateParams memoryId uopts) ∧
    (∀ v, uopts.tags = some v →
      ("tags", Json.arr (v.map Json.str)) ∈ updateParams memoryId uopts) ∧
    (∀ m, uopts.metadata = some m →
      ("metadata", Json.obj m) ∈ updateParams memoryId uopts) ∧
    (∀ i, uopts.importance = some i →
      ("importance", Json.num i) ∈ updateParams memoryId uopts) ∧
    (lopts.bind (·.workspace) = none →
      "workspace" ∉ paramKeys (listParams lopts)) ∧
    (lopts.bind (·.memoryType) = none →
      "memory_type" ∉ paramKeys (listParams lopts)) ∧
    (lopts.bind (·.tags) = none →
      "tags" ∉ paramKeys (listParams lopts)) ∧
    (∀ w, lopts.bind (·.workspace) = some w → w ≠ "" →
      ("workspace", Json.str w) ∈ listParams lopts) ∧
    (lopts.bind (·.workspace) = some "" →
      "workspace" ∉ paramKeys (listParams lopts)) ∧
    (∀ t, lopts.bind (·.memoryType) = some t → t ≠ "" →
      ("memory_type", Json.str t) ∈ listParams lopts) ∧
    (lopts.bind (·.memoryType) = some "" →
      "memory_type" ∉ paramKeys (listParams lopts)) ∧
    (∀ v, lopts.bind (·.tags) = some v →
      ("tags", Json.arr (v.map Json.str)) ∈ listParams lopts) ∧
    (sopts.bind (·.workspace) = none →
      "workspace" ∉ paramKeys (searchParams query sopts)) ∧
    (∀ w, sopts.bind (·.workspace) = some w → w ≠ "" →
      ("workspace", Json.str w) ∈ searchParams query sopts) ∧
    (sopts.bind (·.workspace) = some "" →
      "workspace" ∉ paramKeys (searchParams query sopts)) := by
  refine ⟨?_, ?_, ?_, ?_, ?_, ?_, ?_, ?_, ?_, ?_, ?_, ?_, ?_, ?_, ?_, ?_, ?_,
    ?_, ?_, ?_, ?_, ?_, ?_, ?_, ?_, ?_, ?_, ?_⟩
  · intro h hmem
    rcases mem_paramKeys.1 hmem with ⟨v, hv⟩
    rw [mem_createParams] at hv
    simp +decide [h] at hv
  · intro h hmem
    rcases mem_paramKeys.1 hmem with ⟨v, hv⟩
    rw [mem_createParams] at hv
    simp +decide [h] at hv
  · intro h hmem
    rcases mem_paramKeys.1 hmem with ⟨v, hv⟩
    rw [mem_createParams] at hv
    simp +decide [h] at hv
  · intro h hmem
    rcases mem_paramKeys.1 hmem with ⟨v, hv⟩
    rw [mem_createParams] at hv
    simp +decide [h] at hv
  · intro v hv
    exact mem_createParams.2 (Or.inr (Or.inr (Or.inl ⟨v, hv, rfl⟩)))
  · intro w hw hne
    exact mem_createParams.2
      (Or.inr (Or.inr (Or.inr (Or.inl ⟨w, hw, hne, rfl⟩))))
  · intro h hmem
    rcases mem_paramKeys.1 hmem with ⟨v, hv⟩
    rw [mem_createParams] at hv
    simp +decide [h] at hv
  · intro m hm
    exact mem_createParams.2
      (Or.inr (Or.inr (Or.inr (Or.inr (Or.inl ⟨m, hm, rfl⟩)))))
  · intro i hi
    exact mem_createParams.2
      (Or.inr (Or.inr (Or.inr (Or.inr (Or.inr ⟨i, hi, rfl⟩)))))
  · intro h hmem
    rcases mem_paramKeys.1 hmem with ⟨v, hv⟩
    rw [mem_updateParams] at hv
    simp +decide [h] at hv
  · intro h hmem
    rcases mem_paramKeys.1 hmem with ⟨v, hv⟩
    rw [mem_updateParams] at hv
    simp +decide [h] at hv
  · intro h hmem
    rcases mem_paramKeys.1 hmem with ⟨v, hv⟩
    rw [mem_updateParams] at hv
    simp +decide [h] at hv
  · intro h hmem
    rcases mem_paramKeys.1 hmem with ⟨v, hv⟩
    rw [mem_updateParams] at hv
    simp +decide [h] at hv
  · intro s hs
    exact mem_updateParams.2 (Or.inr (Or.inl ⟨s, hs, rfl⟩))
  · intro v hv
    exact mem_updateParams.2 (Or.inr (Or.inr (Or.inl ⟨v, hv, rfl⟩)))
  · intro m hm
    exact mem_updateParams.2 (Or.inr (Or.inr (Or.inr (Or.inl ⟨m, hm, rfl⟩))))
  · intro i hi
    exact mem_updateParams.2 (Or.inr (Or.inr (Or.inr (Or.inr ⟨i, hi, rfl⟩))))
  · intro h hmem
    rcases mem_paramKeys.1 hmem with ⟨v, hv⟩
    rw [mem_listParams] at hv
    simp +decide [h] at hv
  · intro h hmem
    rcases mem_paramKeys.1 hmem with ⟨v, hv⟩
    rw [mem_listParams] at hv
    simp +decide [h] at hv
  · intro h hmem
    rcases mem_paramKeys.1 hmem with ⟨v, hv⟩
    rw [mem_listParams] at hv
    simp +decide [h] at hv
  · intro w hw hne
    exact mem_listParams.2 (Or.inr (Or.inr (Or.inl ⟨w, hw, hne, rfl⟩)))
  · intro h hmem
    rcases mem_paramKeys.1 hmem with ⟨v, hv⟩
    rw [mem_listParams] at hv
    simp +decide [h] at hv
  · intro t ht hne
    exact mem_listParams.2 (Or.inr (Or.inr (Or.inr (Or.inl ⟨t, ht, hne, rfl⟩))))
  · intro h hmem
    rcases mem_paramKeys.1 hmem with ⟨v, hv⟩
    rw [mem_listParams] at hv
    simp +decide [h] at hv
  · intro v hv
    exact mem_listParams.2 (Or.inr (Or.inr (Or.inr (Or.inr ⟨v, hv, rfl⟩))))
  · intro h hmem
    rcases mem_paramKeys.1 hmem with ⟨v, hv⟩
    rw [mem_searchParams] at hv
    simp +decide [h] at hv
  · intro w hw hne
    exact mem_searchParams.2 (Or.inr (Or.inr ⟨w, hw, hne, rfl⟩))
  · intro h hmem
    rcases mem_paramKeys.1 hmem with ⟨v, hv⟩
    rw [mem_searchParams] at hv
    simp +decide [h] at hv

/-- Witness for C1: a missing tags option yields no "tags" key for
create("x"), and a supplied non-empty workspace appears unchanged in
search("q"). -/
theorem optional_params_exactness_witness :
    "tags" ∉ paramKeys (createParams "x" none) ∧
    ("workspace", Json.str "w") ∈ searchParams "q" (some { workspace := some "w" }) := by
  obtain ⟨c1, c2, c3, c4, c5, c6, c7, c8, c9, u1, u2, u3, u4, u5, u6, u7, u8,
      l1, l2, l3, l4, l5, l6, l7, l8, s1, s2, s3⟩ :=
    optional_params_exactness "x" none 1 {} none "q" (some { workspace := some "w" })
  exact ⟨c1 rfl, s2 "w" rfl (by decide)⟩
